/-
Verification of the ETSS-07-ImageEnhance repository against its
natural-language specification.

The Python sources are shallowly embedded in Lean 4:
* pure numeric computations become functions on `ℕ`/`ℤ`/`ℚ` (Python ints are
  unbounded; float hyperparameters such as the subspace fraction `p` are
  modelled as rationals, and real-valued tensor entries as rationals with
  norms landing in `ℝ`);
* fallible code (Python `assert`, `raise`, out-of-range indexing) returns
  `Except`/`Option`;
* external effects (the filesystem, the random generator) are passed in as
  explicit oracle functions;
* tensors are modelled by explicit shape data plus an entry function.
-/
import Mathlib

namespace ImageEnhance

/-! ## Blueprint separable convolutions: mid-channel count
Source: `src/mon/coreml/layer/custom/blueprint.py`.

`SubspaceBlueprintSeparableConv2d.__init__` (line 73) computes
`mid_channels = min(in_channels, max(min_mid_channels, math.ceil(p * in_channels)))`,
and `AttentionSubspaceBlueprintSeparableConv2d.__init__` (lines 247-250)
computes the same expression after `assert 0.0 <= p <= 1.0`.
Python's `math.ceil` on a float returns an `int`; we model `p` as a rational
and `math.ceil` as `Int.ceil`, so the computed count is an integer. -/

def SubspaceBSConv2d.midChannels (in_channels min_mid_channels : ℕ) (p : ℚ) : ℤ :=
  min (in_channels : ℤ) (max (min_mid_channels : ℤ) ⌈p * (in_channels : ℚ)⌉)

def AttentionSubspaceBSConv2d.midChannels (in_channels min_mid_channels : ℕ) (p : ℚ) : ℤ :=
  min (in_channels : ℤ) (max (min_mid_channels : ℤ) ⌈p * (in_channels : ℚ)⌉)

/-- The spec's formula for the mid-channel count, read over the naturals:
`min(C, max(min_mid_channels, ceil(p*C)))` with a natural-number ceiling. -/
def specMidChannels (C min_mid_channels : ℕ) (p : ℚ) : ℕ :=
  min C (max min_mid_channels ⌈p * (C : ℚ)⌉₊)

/-- C1: for both separable-convolution classes, with `in_channels = C > 0` and
`0 ≤ p ≤ 1`, the computed mid-channel count equals
`min(C, max(min_mid_channels, ceil(p*C)))`. -/
theorem midChannels_eq_spec (C m : ℕ) (p : ℚ) (hC : 0 < C) (hp0 : 0 ≤ p) (hp1 : p ≤ 1) :
    SubspaceBSConv2d.midChannels C m p = (specMidChannels C m p : ℤ) ∧
    AttentionSubspaceBSConv2d.midChannels C m p = (specMidChannels C m p : ℤ) := by
  have hnn : (0 : ℚ) ≤ p * (C : ℚ) := mul_nonneg hp0 (by positivity)
  have hcast : ((⌈p * (C : ℚ)⌉₊ : ℕ) : ℤ) = ⌈p * (C : ℚ)⌉ :=
    Int.natCast_ceil_eq_ceil hnn
  constructor <;>
    · simp only [SubspaceBSConv2d.midChannels, AttentionSubspaceBSConv2d.midChannels,
        specMidChannels, Nat.cast_min, Nat.cast_max, hcast]

/-- Concrete instance of C1: `C = 10`, `min_mid_channels = 4`, `p = 1/4`
gives `min 10 (max 4 ⌈10/4⌉) = 4` in both classes. -/
theorem midChannels_eq_spec_witness :
    SubspaceBSConv2d.midChannels 10 4 (1/4) = ((specMidChannels 10 4 (1/4) : ℕ) : ℤ) ∧
    AttentionSubspaceBSConv2d.midChannels 10 4 (1/4) = ((specMidChannels 10 4 (1/4) : ℕ) : ℤ) :=
  midChannels_eq_spec 10 4 (1/4) (by decide) (by norm_num) (by norm_num)

/-! ## Regularization loss
Source: `src/mon/coreml/layer/custom/blueprint.py`, lines 133-137 and 306-310
(identical bodies in `SubspaceBlueprintSeparableConv2d` and
`AttentionSubspaceBlueprintSeparableConv2d`):
```
w   = self.pw_conv1.weight[:, :, 0, 0]
wwt = torch.mm(w, torch.transpose(w, 0, 1))
i   = torch.eye(wwt.shape[0], device=wwt.device)
return torch.norm(wwt - i, p="fro")
```
`pw_conv1` has kernel size 1, so its weight has shape (mid, in, 1, 1) and the
slice `[:, :, 0, 0]` is a (mid × in) matrix. Tensor entries are modelled as
rationals; `torch.norm(·, p="fro")` is the Frobenius norm, a real number. -/

/-- Frobenius norm of a square rational matrix, valued in `ℝ`
(`torch.norm(a, p="fro")`). -/
noncomputable def frobeniusNorm (n : ℕ) (a : Matrix (Fin n) (Fin n) ℚ) : ℝ :=
  Real.sqrt (∑ i, ∑ j, ((a i j : ℝ)) ^ 2)

/-- `regularization_loss` of a layer whose first pointwise projection has
weight matrix `w` (rows = mid-channel filters): `‖w wᵀ - I‖_fro`. -/
noncomputable def regularization_loss (mid cin : ℕ)
    (w : Matrix (Fin mid) (Fin cin) ℚ) : ℝ :=
  frobeniusNorm mid (w * w.transpose - 1)

lemma frobeniusNorm_eq_zero_iff (n : ℕ) (a : Matrix (Fin n) (Fin n) ℚ) :
    frobeniusNorm n a = 0 ↔ a = 0 := by
  unfold frobeniusNorm
  rw [Real.sqrt_eq_zero (by positivity)]
  constructor
  · intro h
    ext i j
    have hij : ((a i j : ℝ)) ^ 2 = 0 := by
      have h1 : ∀ i ∈ Finset.univ, (0 : ℝ) ≤ ∑ j, ((a i j : ℝ)) ^ 2 := by
        intro i _; positivity
      have h2 : ∑ j, ((a i j : ℝ)) ^ 2 = 0 :=
        (Finset.sum_eq_zero_iff_of_nonneg h1).mp h i (Finset.mem_univ i)
      have h3 : ∀ j ∈ Finset.univ, (0 : ℝ) ≤ ((a i j : ℝ)) ^ 2 := by
        intro j _; positivity
      exact (Finset.sum_eq_zero_iff_of_nonneg h3).mp h2 j (Finset.mem_univ j)
    have : (a i j : ℝ) = 0 := by
      exact pow_eq_zero_iff (n := 2) (by norm_num) |>.mp hij
    exact_mod_cast this
  · intro h
    subst h
    simp

/-- C4: `regularization_loss` is zero when the rows of the first projection's
weight matrix are mutually orthonormal (`w wᵀ = I`), and strictly positive
otherwise. -/
theorem regularization_loss_zero_iff_orthonormal (mid cin : ℕ)
    (w : Matrix (Fin mid) (Fin cin) ℚ) :
    (w * w.transpose = 1 → regularization_loss mid cin w = 0) ∧
    (w * w.transpose ≠ 1 → 0 < regularization_loss mid cin w) := by
  constructor
  · intro h
    unfold regularization_loss
    rw [frobeniusNorm_eq_zero_iff]
    rw [h]
    simp
  · intro h
    have hne : w * w.transpose - 1 ≠ 0 := sub_ne_zero_of_ne h
    have hz : frobeniusNorm mid (w * w.transpose - 1) ≠ 0 := by
      intro h0
      exact hne ((frobeniusNorm_eq_zero_iff mid _).mp h0)
    have hnn : 0 ≤ frobeniusNorm mid (w * w.transpose - 1) := Real.sqrt_nonneg _
    exact lt_of_le_of_ne hnn (Ne.symm hz)

/-- Concrete instance of C4: the 1×1 identity weight matrix has orthonormal
rows and regularization loss zero. -/
theorem regularization_loss_witness :
    regularization_loss 1 1 (1 : Matrix (Fin 1) (Fin 1) ℚ) = 0 :=
  (regularization_loss_zero_iff_orthonormal 1 1 1).1 (by simp)

/-! ## ContextBlock constructor checks
Source: `src/torchkit/core/layer/plugin.py`, `ContextBlock.__init__`
(lines 52-66):
```
assert pooling_type in ["avg", "att"]
assert isinstance(fusion_types, (list, tuple))
valid_fusion_types = ["channel_add", "channel_mul"]
assert all([f in valid_fusion_types for f in fusion_types])
assert len(fusion_types) > 0, "At least one fusion should be used."
```
A failing `assert` raises `AssertionError`; the checks run in the order shown.
The `isinstance` check is a Python-typing concern absorbed by the Lean type
`List String`. Each distinct assertion is modelled as a distinct error. -/

inductive ContextBlockErr where
  | badPoolingType
  | badFusionType
  | noFusionType
  deriving DecidableEq, Repr

def valid_fusion_types : List String := ["channel_add", "channel_mul"]

/-- The assertion prefix of `ContextBlock.__init__`. -/
def ContextBlock.initChecks (pooling_type : String) (fusion_types : List String) :
    Except ContextBlockErr Unit :=
  if pooling_type ∈ ["avg", "att"] then
    if fusion_types.all (fun f => f ∈ valid_fusion_types) then
      if fusion_types.length > 0 then Except.ok ()
      else Except.error ContextBlockErr.noFusionType
    else Except.error ContextBlockErr.badFusionType
  else Except.error ContextBlockErr.badPoolingType

/-- C7: `ContextBlock.__init__` raises if `pooling_type` is not one of
`avg`/`att`, raises if some fusion type is outside the allowed set, raises if
`fusion_types` is empty, and with valid arguments none of the checks raises. -/
theorem contextBlock_initChecks_correct (pt : String) (fts : List String) :
    (pt ∉ ["avg", "att"] → ∃ e, ContextBlock.initChecks pt fts = Except.error e) ∧
    ((∃ f ∈ fts, f ∉ valid_fusion_types) →
      ∃ e, ContextBlock.initChecks pt fts = Except.error e) ∧
    (fts = [] → ∃ e, ContextBlock.initChecks pt fts = Except.error e) ∧
    (pt ∈ ["avg", "att"] → (∀ f ∈ fts, f ∈ valid_fusion_types) → fts ≠ [] →
      ContextBlock.initChecks pt fts = Except.ok ()) := by
  unfold ContextBlock.initChecks
  refine ⟨?_, ?_, ?_, ?_⟩
  · intro hpt
    simp only [if_neg hpt]
    exact ⟨_, rfl⟩
  · rintro ⟨f, hf, hfv⟩
    by_cases hpt : pt ∈ ["avg", "att"]
    · have hall : ¬ fts.all (fun f => decide (f ∈ valid_fusion_types)) = true := by
        simp only [List.all_eq_true, decide_eq_true_eq]
        intro h
        exact hfv (h f hf)
      simp only [if_pos hpt, if_neg hall]
      exact ⟨_, rfl⟩
    · simp only [if_neg hpt]
      exact ⟨_, rfl⟩
  · intro hnil
    subst hnil
    by_cases hpt : pt ∈ ["avg", "att"] <;> simp [hpt]
  · intro hpt hall hne
    have h1 : fts.all (fun f => decide (f ∈ valid_fusion_types)) = true := by
      simp only [List.all_eq_true, decide_eq_true_eq]
      exact hall
    have h2 : fts.length > 0 := List.length_pos.mpr hne
    simp [hpt, h1, h2]

/-- Concrete instance of C7: the defaults `pooling_type="att"`,
`fusion_types=("channel_add",)` pass every check, and an invalid pooling type
raises. -/
theorem contextBlock_initChecks_witness :
    ContextBlock.initChecks "att" ["channel_add"] = Except.ok () ∧
    (∃ e, ContextBlock.initChecks "max" ["channel_add"] = Except.error e) :=
  ⟨(contextBlock_initChecks_correct "att" ["channel_add"]).2.2.2
      (by decide) (by decide) (by decide),
   (contextBlock_initChecks_correct "max" ["channel_add"]).1 (by decide)⟩

/-! ## Forward-pass variants of the separable convolutions
Source: `src/mon/coreml/layer/custom/blueprint.py`.

A layer object is modelled by its sub-modules as abstract tensor transforms:
the two pointwise convolutions, the depthwise convolution, the optional
activations (`None` in Python becomes `Option.none`) and, for the attention
family, the `SimAM` module. The `forward` methods are transcribed literally;
`AttentionSubspaceBlueprintSeparableConv2d1.forward` (lines 384-399) has the
`simam`, `act1` and `act2` applications commented out in the source. -/

structure SBSConv2dModel (α : Type) where
  pw_conv1 : α → α
  act1 : Option (α → α)
  pw_conv2 : α → α
  act2 : Option (α → α)
  dw_conv : α → α

structure ABSConv2dModel (α : Type) where
  pw_conv1 : α → α
  act1 : Option (α → α)
  pw_conv2 : α → α
  act2 : Option (α → α)
  dw_conv : α → α
  simam : α → α

/-- `if self.act is not None: y = self.act(y)`. -/
def applyOptAct {α : Type} : Option (α → α) → α → α
  | none, y => y
  | some f, y => f y

/-- `SubspaceBlueprintSeparableConv2d.forward` (lines 122-131). -/
def SBSConv2dModel.forward {α : Type} (l : SBSConv2dModel α) (input : α) : α :=
  let x := input
  let y := l.pw_conv1 x
  let y := applyOptAct l.act1 y
  let y := l.pw_conv2 y
  let y := applyOptAct l.act2 y
  let y := l.dw_conv y
  y

/-- `AttentionSubspaceBlueprintSeparableConv2d.forward` (lines 294-304). -/
def ABSConv2dModel.forward {α : Type} (l : ABSConv2dModel α) (input : α) : α :=
  let x := input
  let y := l.pw_conv1 x
  let y := l.simam y
  let y := applyOptAct l.act1 y
  let y := l.pw_conv2 y
  let y := applyOptAct l.act2 y
  let y := l.dw_conv y
  y

/-- `AttentionSubspaceBlueprintSeparableConv2d1.forward` (lines 389-399); the
`simam`, `act1` and `act2` lines are commented out in the source. -/
def ABSConv2dModel.forward1 {α : Type} (l : ABSConv2dModel α) (input : α) : α :=
  let x := input
  let x := l.pw_conv1 x
  let x := l.pw_conv2 x
  let x := l.dw_conv x
  x

/-- C8: `AttentionSubspaceBlueprintSeparableConv2d1.forward` computes
`dw_conv(pw_conv2(pw_conv1(x)))` — no simam, no act1, no act2 — and agrees
extensionally with `SubspaceBlueprintSeparableConv2d.forward` when the latter
has both activations absent and the same convolution sub-modules. -/
theorem absconv1_forward_eq (α : Type) (l : ABSConv2dModel α) (x : α) :
    l.forward1 x = l.dw_conv (l.pw_conv2 (l.pw_conv1 x)) ∧
    (∀ s : SBSConv2dModel α, s.act1 = none → s.act2 = none →
      s.pw_conv1 = l.pw_conv1 → s.pw_conv2 = l.pw_conv2 → s.dw_conv = l.dw_conv →
      l.forward1 x = s.forward x) := by
  refine ⟨rfl, ?_⟩
  intro s h1 h2 hp1 hp2 hd
  simp [ABSConv2dModel.forward1, SBSConv2dModel.forward, h1, h2, hp1, hp2, hd,
    applyOptAct]

/-- Concrete instance of C8: a layer over `ℚ` whose sub-modules are explicit
functions, compared with the activation-free subspace layer. -/
theorem absconv1_forward_eq_witness :
    (ABSConv2dModel.forward1
      ⟨fun q => q + 1, none, fun q => 2 * q, none, fun q => q - 3, fun q => q * q⟩
      (5 : ℚ)) = (5 + 1) * 2 - 3 ∧
    (ABSConv2dModel.forward1
      ⟨fun q => q + 1, none, fun q => 2 * q, none, fun q => q - 3, fun q => q * q⟩
      (5 : ℚ)) =
    (SBSConv2dModel.forward
      ⟨fun q => q + 1, none, fun q => 2 * q, none, fun q => q - 3⟩ (5 : ℚ)) := by
  constructor
  · have h := (absconv1_forward_eq ℚ
      ⟨fun q => q + 1, none, fun q => 2 * q, none, fun q => q - 3, fun q => q * q⟩
      (5 : ℚ)).1
    rw [h]
    norm_num
  · exact (absconv1_forward_eq ℚ
      ⟨fun q => q + 1, none, fun q => 2 * q, none, fun q => q - 3, fun q => q * q⟩
      (5 : ℚ)).2
      ⟨fun q => q + 1, none, fun q => 2 * q, none, fun q => q - 3⟩
      rfl rfl rfl rfl rfl

/-! ## Concat and Sum composite layers
Source: `src/torchkit/core/layer/plugin.py`, `Concat.forward` (lines 174-185)
and `Sum` (lines 358-379).

A 4-D tensor is modelled by its four dimension sizes plus an entry function
(entries read out of range are irrelevant to the claims and default to the
stored function's values). `torch.cat(x, dim=1)` requires a non-empty list of
tensors agreeing on every dimension but dim 1 and concatenates along the
channel dimension; elementwise `+` is modelled for identically-shaped operands
(the claim's scope) and fails otherwise; multiplying by a scalar keeps the
shape. `torch.sigmoid` is an external framework primitive passed in as an
abstract scalar function `sig`. -/

structure Tensor4 where
  batch : ℕ
  channels : ℕ
  height : ℕ
  width : ℕ
  data : ℕ → ℕ → ℕ → ℕ → ℚ

/-- Shape agreement on every dimension except the channel dimension. -/
def Tensor4.catCompatible (a b : Tensor4) : Prop :=
  a.batch = b.batch ∧ a.height = b.height ∧ a.width = b.width

instance : DecidablePred (fun p : Tensor4 × Tensor4 => p.1.catCompatible p.2) :=
  fun _ => by unfold Tensor4.catCompatible; infer_instance

/-- Entries of the concatenation along dim 1: a channel index `c` selects the
chunk it falls into. -/
def catData : List Tensor4 → ℕ → ℕ → ℕ → ℕ → ℚ
  | [], _, _, _, _ => 0
  | t :: ts, n, c, h, w =>
    if c < t.channels then t.data n c h w else catData ts n (c - t.channels) h w

/-- `torch.cat(x, dim=1)`: fails on an empty list or on tensors that disagree
outside dim 1; otherwise the output's channel count is the sum of the inputs'
channel counts. -/
def torchCatDim1 (xs : List Tensor4) : Option Tensor4 :=
  match xs with
  | [] => none
  | t :: ts =>
    if ts.all (fun u => u.batch = t.batch ∧ u.height = t.height ∧ u.width = t.width) then
      some { batch := t.batch,
             channels := ((t :: ts).map Tensor4.channels).sum,
             height := t.height,
             width := t.width,
             data := catData (t :: ts) }
    else none

/-- `Concat.forward` with `dim = 1` (the constructor's default):
`return torch.cat(x, dim=self.dim)`. -/
def Concat.forward (x : List Tensor4) : Option Tensor4 :=
  torchCatDim1 x

/-- Elementwise `y + x` for identically-shaped tensors. -/
def Tensor4.add (a b : Tensor4) : Option Tensor4 :=
  if a.batch = b.batch ∧ a.channels = b.channels ∧ a.height = b.height ∧
      a.width = b.width then
    some { a with data := fun n c h w => a.data n c h w + b.data n c h w }
  else
    none

/-- `x * s` for a scalar `s`. -/
def Tensor4.smul (a : Tensor4) (s : ℚ) : Tensor4 :=
  { a with data := fun n c h w => a.data n c h w * s }

/-- The `Sum` layer: `n` inputs, `weight` flag, learnable parameter vector
`w` (initialised in the source to `-arange(1, n)/2`; here an arbitrary
assignment, as the claim quantifies over every weight assignment). -/
structure SumLayer where
  n : ℕ
  weight : Bool
  w : ℕ → ℚ

/-- One iteration of the `Sum.forward` loop: `y = y + x[i + 1] * w[i]` when
the `weight` flag is set, `y = y + x[i + 1]` otherwise, where
`w = torch.sigmoid(self.w) * 2` and `sig` stands for `torch.sigmoid`. -/
def sumStep (sig : ℚ → ℚ) (l : SumLayer) (x : List Tensor4) (y : Tensor4)
    (i : ℕ) : Option Tensor4 :=
  match x.get? (i + 1) with
  | none => none
  | some xi =>
    if l.weight then y.add (xi.smul (sig (l.w i) * 2)) else y.add xi

/-- `Sum.forward` (lines 370-379):
```
y = x[0]
if self.weight:
    w = torch.sigmoid(self.w) * 2
    for i in self.iter:
        y = y + x[i + 1] * w[i]
else:
    for i in self.iter:
        y = y + x[i + 1]
return y
```
with `self.iter = range(n - 1)`. -/
def SumLayer.forward (sig : ℚ → ℚ) (l : SumLayer) (x : List Tensor4) :
    Option Tensor4 :=
  match x.get? 0 with
  | none => none
  | some y0 => (List.range (l.n - 1)).foldlM (sumStep sig l x) y0

/-- Full-shape agreement of two tensors. -/
def Tensor4.sameShape (a b : Tensor4) : Prop :=
  a.batch = b.batch ∧ a.channels = b.channels ∧ a.height = b.height ∧
    a.width = b.width

lemma Tensor4.add_sameShape (a b : Tensor4) (h : a.sameShape b) :
    ∃ c, a.add b = some c ∧ c.sameShape a := by
  refine ⟨{ a with data := fun n c h w => a.data n c h w + b.data n c h w },
    ?_, ?_⟩
  · have h' : a.batch = b.batch ∧ a.channels = b.channels ∧
        a.height = b.height ∧ a.width = b.width := h
    unfold Tensor4.add
    rw [if_pos h']
  · exact ⟨rfl, rfl, rfl, rfl⟩

lemma Tensor4.smul_sameShape (a : Tensor4) (s : ℚ) : (a.smul s).sameShape a :=
  ⟨rfl, rfl, rfl, rfl⟩

lemma Tensor4.sameShape_trans {a b c : Tensor4} (h1 : a.sameShape b)
    (h2 : b.sameShape c) : a.sameShape c := by
  obtain ⟨x1, x2, x3, x4⟩ := h1
  obtain ⟨y1, y2, y3, y4⟩ := h2
  exact ⟨x1.trans y1, x2.trans y2, x3.trans y3, x4.trans y4⟩

lemma Tensor4.sameShape_symm {a b : Tensor4} (h : a.sameShape b) :
    b.sameShape a := by
  obtain ⟨x1, x2, x3, x4⟩ := h
  exact ⟨x1.symm, x2.symm, x3.symm, x4.symm⟩

lemma sumStep_sameShape (sig : ℚ → ℚ) (l : SumLayer) (x : List Tensor4)
    (s y0 xi : Tensor4) (i : ℕ) (hy0 : y0.sameShape s)
    (hxi : x.get? (i + 1) = some xi) (hxis : xi.sameShape s) :
    ∃ c, sumStep sig l x y0 i = some c ∧ c.sameShape s := by
  simp only [sumStep, hxi]
  by_cases hw : l.weight
  · have hcompat : y0.sameShape (xi.smul (sig (l.w i) * 2)) :=
      Tensor4.sameShape_trans hy0
        (Tensor4.sameShape_symm
          (Tensor4.sameShape_trans (Tensor4.smul_sameShape xi _) hxis))
    obtain ⟨c, hc, hcs⟩ := Tensor4.add_sameShape y0 _ hcompat
    refine ⟨c, ?_, Tensor4.sameShape_trans hcs hy0⟩
    rw [if_pos hw]
    exact hc
  · have hcompat : y0.sameShape xi :=
      Tensor4.sameShape_trans hy0 (Tensor4.sameShape_symm hxis)
    obtain ⟨c, hc, hcs⟩ := Tensor4.add_sameShape y0 _ hcompat
    refine ⟨c, ?_, Tensor4.sameShape_trans hcs hy0⟩
    rw [if_neg hw]
    exact hc

/-- The `Sum.forward` accumulation keeps the shape of the running value as
long as every fetched input has that shape. -/
lemma sumFold_sameShape (sig : ℚ → ℚ) (l : SumLayer) (x : List Tensor4)
    (s : Tensor4) :
    ∀ (idxs : List ℕ) (y0 : Tensor4), y0.sameShape s →
    (∀ i ∈ idxs, ∃ xi, x.get? (i + 1) = some xi ∧ xi.sameShape s) →
    ∃ y, idxs.foldlM (sumStep sig l x) y0 = some y ∧ y.sameShape s := by
  intro idxs
  induction idxs with
  | nil => intro y0 hy0 _; exact ⟨y0, rfl, hy0⟩
  | cons i rest ih =>
    intro y0 hy0 hall
    obtain ⟨xi, hxi, hxis⟩ := hall i (List.mem_cons_self i rest)
    obtain ⟨c, hc, hcs⟩ := sumStep_sameShape sig l x s y0 xi i hy0 hxi hxis
    obtain ⟨y, hy, hys⟩ :=
      ih c hcs (fun j hj => hall j (List.mem_cons_of_mem i hj))
    refine ⟨y, ?_, hys⟩
    rw [List.foldlM_cons, hc]
    exact hy

/-- C9: (a) on a non-empty list of 4-D tensors agreeing on every dimension
but the channel one, `Concat.forward` (dim 1) returns a tensor whose channel
count is the sum of the inputs' channel counts; (b) on a list of `n`
identically-shaped tensors, `Sum.forward` returns a tensor of that single
shape, for either value of the `weight` flag and any weight assignment. -/
theorem concat_sum_shape (t : Tensor4) (ts : List Tensor4)
    (sig : ℚ → ℚ) (l : SumLayer) (x : List Tensor4) (s : Tensor4) :
    ((∀ u ∈ ts, t.catCompatible u) →
      ∃ r, Concat.forward (t :: ts) = some r ∧
        r.channels = ((t :: ts).map Tensor4.channels).sum) ∧
    (x.length = l.n → 1 ≤ l.n → (∀ u ∈ x, u.sameShape s) →
      ∃ y, SumLayer.forward sig l x = some y ∧ y.sameShape s) := by
  constructor
  · intro hcompat
    have hall : ts.all
        (fun u => decide (u.batch = t.batch ∧ u.height = t.height ∧ u.width = t.width))
        = true := by
      simp only [List.all_eq_true, decide_eq_true_eq]
      intro u hu
      obtain ⟨h1, h2, h3⟩ := hcompat u hu
      exact ⟨h1.symm, h2.symm, h3.symm⟩
    refine ⟨{ batch := t.batch,
              channels := ((t :: ts).map Tensor4.channels).sum,
              height := t.height,
              width := t.width,
              data := catData (t :: ts) }, ?_, rfl⟩
    simp only [Concat.forward, torchCatDim1]
    rw [if_pos hall]
  · intro hlen hn hsh
    have hx0 : ∃ y0, x.get? 0 = some y0 := by
      cases x with
      | nil => simp at hlen; omega
      | cons a b => exact ⟨a, rfl⟩
    obtain ⟨y0, hy0⟩ := hx0
    have hy0s : y0.sameShape s := hsh y0 (List.get?_mem hy0)
    have hidx : ∀ i ∈ List.range (l.n - 1),
        ∃ xi, x.get? (i + 1) = some xi ∧ xi.sameShape s := by
      intro i hi
      have hi' : i < l.n - 1 := List.mem_range.mp hi
      have hlt : i + 1 < x.length := by omega
      exact ⟨x.get ⟨i + 1, hlt⟩, List.get?_eq_get hlt,
        hsh _ (List.get_mem x _ hlt)⟩
    obtain ⟨y, hy, hys⟩ :=
      sumFold_sameShape sig l x s (List.range (l.n - 1)) y0 hy0s hidx
    refine ⟨y, ?_, hys⟩
    unfold SumLayer.forward
    rw [hy0]
    exact hy

def tensorA : Tensor4 := ⟨1, 2, 3, 4, fun _ _ _ _ => 0⟩

def tensorB : Tensor4 := ⟨1, 5, 3, 4, fun _ _ _ _ => 1⟩

def tensorC : Tensor4 := ⟨1, 2, 3, 4, fun _ _ _ _ => 2⟩

/-- Concrete instance of C9: concatenating channel counts 2 and 5 yields 7,
and a weighted 2-input `Sum` keeps the shape of its first input. -/
theorem concat_sum_shape_witness :
    (∃ r, Concat.forward [tensorA, tensorB] = some r ∧
      r.channels = ([tensorA, tensorB].map Tensor4.channels).sum) ∧
    (∃ y, SumLayer.forward id ⟨2, true, fun _ => 1⟩ [tensorA, tensorC] = some y ∧
      y.sameShape tensorA) := by
  constructor
  · exact (concat_sum_shape tensorA [tensorB] id ⟨2, true, fun _ => 1⟩
      [tensorA, tensorC] tensorA).1
      (by intro u hu; rcases List.mem_singleton.mp hu with rfl; exact ⟨rfl, rfl, rfl⟩)
  · exact (concat_sum_shape tensorA [tensorB] id ⟨2, true, fun _ => 1⟩
      [tensorA, tensorC] tensorA).2
      rfl (by norm_num)
      (by intro u hu; fin_cases hu <;> exact ⟨rfl, rfl, rfl, rfl⟩)

/-! ## CityscapesLoL file listing and label loading
Source: `src/torchkit/datasets/cityscapes/cityscapes_lol.py`,
`CityscapesLoL.list_files` (lines 196-238) and `CityscapesLoL.load_labels`
(lines 242-274).

The filesystem and the random generator are oracle functions: `isfile p` is
`os.path.isfile(p)` and `rand k` is the `k`-th draw of the random generator
(Python's `random.randint(0, len - 1)` yields an arbitrary index in
`[0, len - 1]`, here normalised by `% len`; it raises `ValueError` when
`len = 0`, i.e. on an empty listing). `glob.glob`'s result is the `discovered`
list. The base class initialises the three path attributes to empty lists
before `list_files` runs; the prior value of `has_custom_labels` is the
parameter of `initState`. A failing `assert` is the `countMismatch` error. -/

inductive ListFilesErr where
  | emptyRandRange
  | countMismatch
  deriving DecidableEq, Repr

structure DatasetPaths where
  image_paths : List String
  eimage_paths : List String
  label_paths : List String
  has_custom_labels : Bool
  deriving DecidableEq, Repr

def initState (flag : Bool) : DatasetPaths := ⟨[], [], [], flag⟩

/-- `eimage_path = image_path.replace("low", "high")`. -/
def eimagePathOf (p : String) : String := p.replace "low" "high"

/-- `label_path = image_path.replace("low", "customs").replace(".png", ".json")`. -/
def labelPathOf (p : String) : String :=
  (p.replace "low" "customs").replace ".png" ".json"

/-- The `for image_path in image_paths:` loop of `list_files` (lines 225-232):
appends to the three lists and assigns
`self.has_custom_labels = os.path.isfile(label_path)` on every iteration. -/
def listLoop (isfile : String → Bool) (st : DatasetPaths) :
    List String → DatasetPaths
  | [] => st
  | p :: ps =>
    listLoop isfile
      { image_paths := st.image_paths ++ [p],
        eimage_paths := st.eimage_paths ++ [eimagePathOf p],
        label_paths := st.label_paths ++ [labelPathOf p],
        has_custom_labels := isfile (labelPathOf p) } ps

/-- The `fast_dev_run` subset selection (lines 219-222):
`indices = [random.randint(0, len(image_paths) - 1) for _ in range(batch_size)]`
then `image_paths = [image_paths[i] for i in indices]`. `random.randint(0, -1)`
raises `ValueError` when the discovered list is empty. -/
def fastDevSelect (rand : ℕ → ℕ) (batch_size : ℕ) (image_paths : List String) :
    Except ListFilesErr (List String) :=
  if h : image_paths.length = 0 then Except.error ListFilesErr.emptyRandRange
  else Except.ok ((List.range batch_size).map
    (fun k => image_paths.get
      ⟨rand k % image_paths.length, Nat.mod_lt _ (Nat.pos_of_ne_zero h)⟩))

/-- `list_files` up to (but excluding) the final count assertion. -/
def listFilesCore (isfile : String → Bool) (rand : ℕ → ℕ)
    (fast_dev_run : Bool) (batch_size : ℕ) (st : DatasetPaths)
    (discovered : List String) : Except ListFilesErr DatasetPaths :=
  if fast_dev_run then
    match fastDevSelect rand batch_size discovered with
    | Except.error e => Except.error e
    | Except.ok sel => Except.ok (listLoop isfile st sel)
  else
    Except.ok (listLoop isfile st discovered)

/-- `CityscapesLoL.list_files`: the loop followed by
`assert len(self.image_paths) == len(self.eimage_paths)` (lines 235-237). -/
def list_files (isfile : String → Bool) (rand : ℕ → ℕ)
    (fast_dev_run : Bool) (batch_size : ℕ) (st : DatasetPaths)
    (discovered : List String) : Except ListFilesErr DatasetPaths :=
  match listFilesCore isfile rand fast_dev_run batch_size st discovered with
  | Except.error e => Except.error e
  | Except.ok st' =>
    if st'.image_paths.length = st'.eimage_paths.length then Except.ok st'
    else Except.error ListFilesErr.countMismatch

lemma listLoop_lengths (isfile : String → Bool) :
    ∀ (ps : List String) (st : DatasetPaths),
    (listLoop isfile st ps).image_paths.length
      = st.image_paths.length + ps.length ∧
    (listLoop isfile st ps).eimage_paths.length
      = st.eimage_paths.length + ps.length := by
  intro ps
  induction ps with
  | nil => intro st; simp [listLoop]
  | cons p rest ih =>
    intro st
    obtain ⟨h1, h2⟩ := ih
      { image_paths := st.image_paths ++ [p],
        eimage_paths := st.eimage_paths ++ [eimagePathOf p],
        label_paths := st.label_paths ++ [labelPathOf p],
        has_custom_labels := isfile (labelPathOf p) }
    constructor
    · rw [listLoop, h1]
      simp
      omega
    · rw [listLoop, h2]
      simp
      omega

lemma listFilesCore_lengths (isfile : String → Bool) (rand : ℕ → ℕ)
    (fdr : Bool) (bs : ℕ) (flag : Bool) (d : List String) (st : DatasetPaths)
    (h : listFilesCore isfile rand fdr bs (initState flag) d = Except.ok st) :
    st.image_paths.length = st.eimage_paths.length := by
  unfold listFilesCore at h
  by_cases hf : fdr
  · rw [if_pos hf] at h
    cases hsel : fastDevSelect rand bs d with
    | error e => rw [hsel] at h; exact Except.noConfusion h
    | ok sel =>
      rw [hsel] at h
      have hst : st = listLoop isfile (initState flag) sel :=
        (Except.ok.inj h).symm
      subst hst
      obtain ⟨h1, h2⟩ := listLoop_lengths isfile sel (initState flag)
      rw [h1, h2]
      rfl
  · rw [if_neg hf] at h
    have hst : st = listLoop isfile (initState flag) d :=
      (Except.ok.inj h).symm
    subst hst
    obtain ⟨h1, h2⟩ := listLoop_lengths isfile d (initState flag)
    rw [h1, h2]
    rfl

/-- C3: the count assertion of `list_files` fires exactly when the produced
image and enhanced-image path counts differ; those counts are always equal
(each loop iteration appends one entry to each list), so `list_files`
completes without raising whenever the listing phase itself succeeds. -/
theorem list_files_count_assert (isfile : String → Bool) (rand : ℕ → ℕ)
    (fdr : Bool) (bs : ℕ) (flag : Bool) (d : List String) (st : DatasetPaths)
    (hcore : listFilesCore isfile rand fdr bs (initState flag) d = Except.ok st) :
    (list_files isfile rand fdr bs (initState flag) d
        = Except.error ListFilesErr.countMismatch ↔
      st.image_paths.length ≠ st.eimage_paths.length) ∧
    st.image_paths.length = st.eimage_paths.length ∧
    list_files isfile rand fdr bs (initState flag) d = Except.ok st := by
  have hlen : st.image_paths.length = st.eimage_paths.length :=
    listFilesCore_lengths isfile rand fdr bs flag d st hcore
  have hok : list_files isfile rand fdr bs (initState flag) d = Except.ok st := by
    unfold list_files
    rw [hcore]
    exact if_pos hlen
  refine ⟨?_, hlen, hok⟩
  constructor
  · intro habs
    rw [hok] at habs
    exact Except.noConfusion habs
  · intro habs
    exact absurd hlen habs

/-- Concrete instance of C3: a one-file listing produces equal counts and no
assertion failure. -/
theorem list_files_count_assert_witness :
    list_files (fun _ => true) (fun _ => 0) false 1 (initState false)
        ["d/low/a.png"]
      = Except.ok (listLoop (fun _ => true) (initState false) ["d/low/a.png"]) :=
  (list_files_count_assert (fun _ => true) (fun _ => 0) false 1 false
    ["d/low/a.png"] (listLoop (fun _ => true) (initState false) ["d/low/a.png"])
    rfl).2.2

/-- C2 counterexample: with `fast_dev_run` enabled and zero discovered image
files, `list_files` raises (`random.randint(0, -1)` is an empty range) instead
of returning `batch_size` image paths. -/
theorem list_files_fastDev_empty_raises :
    list_files (fun _ => false) (fun _ => 0) true 4 (initState false) []
        = Except.error ListFilesErr.emptyRandRange ∧
    ¬ ∃ st, list_files (fun _ => false) (fun _ => 0) true 4 (initState false) []
        = Except.ok st ∧ st.image_paths.length = 4 := by
  have h : list_files (fun _ => false) (fun _ => 0) true 4 (initState false) []
      = Except.error ListFilesErr.emptyRandRange := rfl
  refine ⟨h, ?_⟩
  rintro ⟨st, hst, -⟩
  rw [h] at hst
  exact Except.noConfusion hst

/-- C2 (amended): when `fast_dev_run` is enabled and at least one image file
was discovered, `list_files` selects exactly `batch_size` image paths. -/
theorem list_files_fastDev_batch (isfile : String → Bool) (rand : ℕ → ℕ)
    (bs : ℕ) (flag : Bool) (d : List String) (h : d ≠ []) :
    ∃ st, list_files isfile rand true bs (initState flag) d = Except.ok st ∧
      st.image_paths.length = bs := by
  have hne : d.length ≠ 0 := fun h0 => h (List.length_eq_zero.mp h0)
  have hsel : fastDevSelect rand bs d
      = Except.ok ((List.range bs).map
          (fun k => d.get ⟨rand k % d.length, Nat.mod_lt _ (Nat.pos_of_ne_zero hne)⟩)) := by
    unfold fastDevSelect
    rw [dif_neg hne]
  set sel := (List.range bs).map
    (fun k => d.get ⟨rand k % d.length, Nat.mod_lt _ (Nat.pos_of_ne_zero hne)⟩)
    with hsel_def
  have hcore : listFilesCore isfile rand true bs (initState flag) d
      = Except.ok (listLoop isfile (initState flag) sel) := by
    unfold listFilesCore
    rw [if_pos rfl, hsel]
  obtain ⟨h1, h2⟩ := listLoop_lengths isfile sel (initState flag)
  have hlen : (listLoop isfile (initState flag) sel).image_paths.length = bs := by
    rw [h1]
    simp [hsel_def, initState]
  have hcnd : (listLoop isfile (initState flag) sel).image_paths.length
      = (listLoop isfile (initState flag) sel).eimage_paths.length := by
    rw [h1, h2]
    rfl
  have hok : list_files isfile rand true bs (initState flag) d
      = Except.ok (listLoop isfile (initState flag) sel) := by
    unfold list_files
    rw [hcore]
    exact if_pos hcnd
  exact ⟨_, hok, hlen⟩

/-- Concrete instance of the amended C2: one discovered file, batch size 4. -/
theorem list_files_fastDev_batch_witness :
    ∃ st, list_files (fun _ => false) (fun _ => 0) true 4 (initState false)
        ["d/low/a.png"] = Except.ok st ∧ st.image_paths.length = 4 :=
  list_files_fastDev_batch (fun _ => false) (fun _ => 0) 4 false
    ["d/low/a.png"] (List.cons_ne_nil _ _)

/-- The two branches of `CityscapesLoL.load_labels`: the custom label file
(`VisualDataHandler().load_from_file`) versus metadata parsed from the image
headers (`ImageInfo.from_file`). -/
inductive LabelSource where
  | customFile
  | imageHeader
  deriving DecidableEq, Repr

/-- Python truthiness of the `label_path` argument (`None` and the empty
string are falsy). -/
def strTruthy : Option String → Bool
  | none => false
  | some s => !(s == "")

/-- `CityscapesLoL.load_labels` (lines 262-274), reduced to which data source
it returns: `if self.has_custom_labels and label_path:` takes the custom-file
branch, anything else falls back to image-header metadata. -/
def load_labels (has_custom_labels : Bool) (label_path : Option String) :
    LabelSource :=
  if has_custom_labels && strTruthy label_path then LabelSource.customFile
  else LabelSource.imageHeader

lemma listLoop_flag (isfile : String → Bool) :
    ∀ (ps : List String) (st : DatasetPaths),
    (listLoop isfile st ps).has_custom_labels =
      (match ps.getLast? with
       | none => st.has_custom_labels
       | some p => isfile (labelPathOf p)) := by
  intro ps
  induction ps with
  | nil => intro st; rfl
  | cons p rest ih =>
    intro st
    cases rest with
    | nil =>
      rw [listLoop]
      exact ih
        { image_paths := st.image_paths ++ [p],
          eimage_paths := st.eimage_paths ++ [eimagePathOf p],
          label_paths := st.label_paths ++ [labelPathOf p],
          has_custom_labels := isfile (labelPathOf p) }
    | cons q qs =>
      rw [listLoop, ih, List.getLast?_cons_cons,
        List.getLast?_eq_getLast (q :: qs) (List.cons_ne_nil q qs)]

/-- C10: after a successful `list_files` on a non-empty listing, the
`has_custom_labels` flag records only whether a custom label file exists for
the last enumerated image (the assignment inside the loop overwrites it every
iteration), and `load_labels` consults that single flag — it takes the
custom-file branch exactly when the flag is set and `label_path` is truthy. -/
theorem has_custom_labels_last_only (isfile : String → Bool) (rand : ℕ → ℕ)
    (bs : ℕ) (flag : Bool) (d : List String) (h : d ≠ []) :
    (∃ st, list_files isfile rand false bs (initState flag) d = Except.ok st ∧
      st.has_custom_labels = isfile (labelPathOf (d.getLast h))) ∧
    (∀ (b : Bool) (lp : Option String),
      load_labels b lp = LabelSource.customFile ↔ (b && strTruthy lp) = true) := by
  constructor
  · have hcore : listFilesCore isfile rand false bs (initState flag) d
        = Except.ok (listLoop isfile (initState flag) d) := by
      unfold listFilesCore
      rw [if_neg (by simp)]
    obtain ⟨h1, h2⟩ := listLoop_lengths isfile d (initState flag)
    have hcnd : (listLoop isfile (initState flag) d).image_paths.length
        = (listLoop isfile (initState flag) d).eimage_paths.length := by
      rw [h1, h2]
      rfl
    have hok : list_files isfile rand false bs (initState flag) d
        = Except.ok (listLoop isfile (initState flag) d) := by
      unfold list_files
      rw [hcore]
      exact if_pos hcnd
    refine ⟨_, hok, ?_⟩
    rw [listLoop_flag isfile d (initState flag)]
    rw [List.getLast?_eq_getLast d h]
  · intro b lp
    unfold load_labels
    by_cases hc : (b && strTruthy lp) = true
    · rw [if_pos hc]
      simp [hc]
    · rw [if_neg hc]
      constructor
      · intro habs
        exact LabelSource.noConfusion habs
      · intro habs
        exact absurd habs hc

/-- Concrete instance of C10: two discovered files under a filesystem where
every path exists; the flag ends `true` and `load_labels` picks the
custom-file branch for it. -/
theorem has_custom_labels_last_only_witness :
    (∃ st, list_files (fun _ => true) (fun _ => 0) false 4 (initState false)
        ["d/low/a.png", "d/low/b.png"] = Except.ok st ∧
      st.has_custom_labels = true) ∧
    load_labels true (some "d/customs/b.json") = LabelSource.customFile := by
  obtain ⟨⟨st, hok, hflag⟩, hload⟩ :=
    has_custom_labels_last_only (fun _ => true) (fun _ => 0) 4 false
      ["d/low/a.png", "d/low/b.png"] (List.cons_ne_nil _ _)
  exact ⟨⟨st, hok, hflag.trans rfl⟩,
    (hload true (some "d/customs/b.json")).mpr rfl⟩

/-! ## Config loading
Source: `src/torchkit/utils.py`, `load_config` (lines 43-61):
```
if isinstance(config, str):
    config_dict = load(path=config)
elif isinstance(config, dict):
    config_dict = config
else:
    raise ValueError
assert (config_dict is not None), f"No configuration is found at ..."
config = Munch.fromDict(config_dict)
return config
```
JSON/YAML-like values form `CVal`; `torchkit.core.fileio.load` is the
filesystem oracle `fload` (returning `none` when nothing loads). `Munch` is a
dict subclass whose attribute access reads the same keys, so a namespace is a
structurally converted tree; `Munch.fromDict` converts every nested mapping. -/

inductive CVal where
  | str : String → CVal
  | num : ℤ → CVal
  | dict : List (String × CVal) → CVal
  | list : List CVal → CVal

/-- Attribute-accessible namespace trees (`Munch`). -/
inductive NVal where
  | str : String → NVal
  | num : ℤ → NVal
  | ns : List (String × NVal) → NVal
  | list : List NVal → NVal

mutual

/-- `Munch.fromDict`: recursively turn every mapping into a namespace. -/
def munchFromDict : CVal → NVal
  | CVal.str s => NVal.str s
  | CVal.num n => NVal.num n
  | CVal.dict kvs => NVal.ns (munchFields kvs)
  | CVal.list vs => NVal.list (munchList vs)

def munchFields : List (String × CVal) → List (String × NVal)
  | [] => []
  | (k, v) :: rest => (k, munchFromDict v) :: munchFields rest

def munchList : List CVal → List NVal
  | [] => []
  | v :: rest => munchFromDict v :: munchList rest

end

/-- The accessible fields of a namespace: its top-level key/value pairs
(`none` for a non-namespace value). -/
def NVal.fields : NVal → Option (List (String × NVal))
  | NVal.ns kvs => some kvs
  | _ => none

/-- The `config` argument: a filepath string, an in-memory dict, or anything
else (which raises `ValueError`). -/
inductive ConfigArg where
  | path : String → ConfigArg
  | dict : List (String × CVal) → ConfigArg
  | other : ConfigArg

inductive LoadConfigErr where
  | valueError
  | noConfigFound
  deriving DecidableEq, Repr

/-- `load_config` with filesystem oracle `fload` (= `load(path=...)`). -/
def load_config (fload : String → Option CVal) :
    ConfigArg → Except LoadConfigErr NVal
  | ConfigArg.path s =>
    match fload s with
    | none => Except.error LoadConfigErr.noConfigFound
    | some v => Except.ok (munchFromDict v)
  | ConfigArg.dict d => Except.ok (munchFromDict (CVal.dict d))
  | ConfigArg.other => Except.error LoadConfigErr.valueError

/-- C5: when a file path loads as the mapping `m`, `load_config` on the path
and `load_config` on the in-memory dict `m` return the same namespace, hence
namespaces with identical accessible fields. -/
theorem load_config_path_dict_agree (fload : String → Option CVal)
    (s : String) (m : List (String × CVal))
    (h : fload s = some (CVal.dict m)) :
    load_config fload (ConfigArg.path s) = load_config fload (ConfigArg.dict m) ∧
    ∀ ns1 ns2, load_config fload (ConfigArg.path s) = Except.ok ns1 →
      load_config fload (ConfigArg.dict m) = Except.ok ns2 →
      ns1.fields = ns2.fields := by
  have hpath : load_config fload (ConfigArg.path s)
      = Except.ok (munchFromDict (CVal.dict m)) := by
    show (match fload s with
      | none => Except.error LoadConfigErr.noConfigFound
      | some v => Except.ok (munchFromDict v))
      = Except.ok (munchFromDict (CVal.dict m))
    rw [h]
  constructor
  · rw [hpath]
    rfl
  · intro ns1 ns2 h1 h2
    rw [hpath] at h1
    have e1 : munchFromDict (CVal.dict m) = ns1 := Except.ok.inj h1
    have e2 : munchFromDict (CVal.dict m) = ns2 := Except.ok.inj h2
    rw [← e1, ← e2]

/-- Concrete instance of C5: a one-key mapping read from a file and given
in memory produce the same namespace. -/
theorem load_config_path_dict_agree_witness :
    load_config (fun _ => some (CVal.dict [("lr", CVal.num 1)]))
        (ConfigArg.path "cfg.yaml")
      = load_config (fun _ => some (CVal.dict [("lr", CVal.num 1)]))
        (ConfigArg.dict [("lr", CVal.num 1)]) :=
  (load_config_path_dict_agree (fun _ => some (CVal.dict [("lr", CVal.num 1)]))
    "cfg.yaml" [("lr", CVal.num 1)] rfl).1

/-! ## Layer registry
`LAYERS` comes from `mon.globals`, whose implementation is not part of this
repository snapshot; only registration call sites appear, in
`src/mon/coreml/layer/custom/blueprint.py` (the `@LAYERS.register()`
decorators and the `LAYERS.register(module=...)` calls at lines 206-207 and
634-648). -/

/-- Modelled from the spec: the layer registry (`mon.globals.LAYERS`), whose
implementation is missing from the snapshot. Spec section 6: "Layer registry:
accepts a string key and keyword arguments, returns a constructed layer
instance; duplicate registration is an error." A registry is a finite
name-to-constructor table; registering under a name already present is an
error rather than an overwrite or a silent no-op. -/
def registerLayer {α : Type} (reg : List (String × α)) (name : String)
    (ctor : α) : Except String (List (String × α)) :=
  if (reg.map Prod.fst).contains name then
    Except.error "duplicate registration"
  else
    Except.ok (reg ++ [(name, ctor)])

/-- C6: registering a second constructor under a name already present in the
registry is an error; the registry neither overwrites nor ignores it. -/
theorem registerLayer_duplicate_errors {α : Type} (reg reg' : List (String × α))
    (name : String) (c1 c2 : α)
    (h : registerLayer reg name c1 = Except.ok reg') :
    registerLayer reg' name c2 = Except.error "duplicate registration" := by
  unfold registerLayer at h ⊢
  by_cases hc : (reg.map Prod.fst).contains name
  · rw [if_pos hc] at h
    exact Except.noConfusion h
  · rw [if_neg hc] at h
    have hreg : reg ++ [(name, c1)] = reg' := Except.ok.inj h
    have hmem : ((reg'.map Prod.fst).contains name) = true := by
      rw [← hreg]
      simp
    rw [if_pos hmem]

/-- Concrete instance of C6: registering `conv` twice in an initially empty
registry of `ℕ`-valued constructors fails the second time. -/
theorem registerLayer_duplicate_errors_witness :
    registerLayer ([("conv", 0)] : List (String × ℕ)) "conv" 1
      = Except.error "duplicate registration" :=
  registerLayer_duplicate_errors [] [("conv", 0)] "conv" 0 1 rfl

end ImageEnhance
